import Mathlib

/-!
Verification development for the vmup image-resolution subsystem
(`vmup/disk.py`): a shallow embedding of the Fedora image fetcher
(filename parsing, the local-image selector, remote image resolution,
the `fetch_image` orchestrator) and of the disk provisioning helpers
(`make_disk_file`, `make_disk_volume`), together with theorems about
their behaviour.

Machine strings are modelled as Lean `String`s; Python's `str.split`,
`os.path.splitext`, `os.path.join` and `str.startswith` are embedded
explicitly below with their CPython semantics.  Exceptions are modelled
with `Except`; the pair returned by the embedded `fetch_image` carries a
`Trace` recording whether the network or the local-cache listing was
touched during the call.
-/

deriving instance DecidableEq for Except

namespace Vmup

/-- Python's `str.split(sep)` for a single-character separator:
split at every occurrence, keeping empty segments. -/
def splitCharAux (sep : Char) : List Char → List Char → List (List Char)
  | [], acc => [acc.reverse]
  | c :: rest, acc =>
    if c == sep then acc.reverse :: splitCharAux sep rest []
    else splitCharAux sep rest (c :: acc)

/-- `s.split(sep)` for a one-character `sep` (CPython semantics:
`"".split('-') == [""]`, empty segments preserved). -/
def pySplit (sep : Char) (s : String) : List String :=
  (splitCharAux sep s.data []).map (fun l => ⟨l⟩)

/-- `name.startswith('/')` as used by `fetch_image`. -/
def pathLike (s : String) : Bool :=
  s.data.head? == some '/'

/-- Index of the last occurrence of `c` in `l` (Python `str.rfind`,
with `none` standing for `-1`). -/
def lastIdxAux (c : Char) : List Char → Nat → Option Nat → Option Nat
  | [], _, r => r
  | x :: xs, i, r => lastIdxAux c xs (i + 1) (if x == c then some i else r)

def lastIdx (c : Char) (l : List Char) : Option Nat :=
  lastIdxAux c l 0 none

/-- The extension part of `os.path.splitext(p)` (posixpath): the suffix
from the last `'.'` that lies after the last `'/'`, provided the basename
has at least one non-dot character before that dot; the leading dot is
part of the result (`splitext("/a/b.qcow2")[1] == ".qcow2"`,
`splitext("/a/.bashrc")[1] == ""`). -/
def splitextExt (s : String) : String :=
  let l := s.data
  match lastIdx '.' l with
  | none => ""
  | some d =>
    let sepOpt := lastIdx '/' l
    let fnameStart : Nat := match sepOpt with | none => 0 | some k => k + 1
    if (match sepOpt with | none => true | some k => decide (k < d)) then
      if ((l.take d).drop fnameStart).any (fun c => c != '.') then
        ⟨l.drop d⟩
      else ""
    else ""

/-- `os.path.join(a, b)` for two components (posixpath). -/
def pathJoin (a b : String) : String :=
  if b.data.head? == some '/' then b
  else if a = "" || a.data.getLast? == some '/' then a ++ b
  else a ++ "/" ++ b

/-- Python `str.isdigit` restricted to ASCII: nonempty and all digits. -/
def isDigitStr (s : String) : Bool :=
  !s.data.isEmpty && s.data.all Char.isDigit

/-- `int(s)` on a digit string. -/
def strToNat (s : String) : Nat :=
  s.data.foldl (fun a c => a * 10 + (c.toNat - 48)) 0

/-- A regex `\w` character (ASCII part: letters, digits, underscore). -/
def isWordChar (c : Char) : Bool :=
  c.isAlphanum || c == '_'

/-- `some rest` when `p` is a prefix of `l`, with `rest` the remainder. -/
def dropPre : List Char → List Char → Option (List Char)
  | [], l => some l
  | _ :: _, [] => none
  | p :: ps, c :: cs => if p == c then dropPre ps cs else none

/-- Parsed image metadata: the namedtuple
`ImageInfo(full_name, version, fmt, compression)` with
`version = (release, compose_date)` kept as strings. -/
structure ImageInfo where
  full_name : String
  version : String × String
  fmt : String
  compression : Option String
deriving DecidableEq, Repr

/-- Matching of `NAME_RE`, the compiled pattern
`^Fedora-Cloud-{image_type}-(\d+)-(\d{8}).x86_64.(\w+)(.(\w+))?$`:
greedy digits for the release, exactly eight digits for the compose
date, one arbitrary character where the pattern has an unescaped `.`,
a greedy `\w+` for the format, and an optional arbitrary separator
followed by a `\w+` compression suffix reaching the end of the name.
Yields the groups `(1, 2)` as `version`, group 3 as `fmt` and group 5 as
`compression`, exactly as `get_cloud_images`/`find_local_images` build
the `ImageInfo`. -/
def parseImageName (imageType : String) (name : String) : Option ImageInfo :=
  match dropPre ("Fedora-Cloud-" ++ imageType ++ "-").data name.data with
  | none => none
  | some rest =>
    let rel := rest.takeWhile Char.isDigit
    let rest1 := rest.dropWhile Char.isDigit
    if rel.isEmpty then none else
    match rest1 with
    | '-' :: rest2 =>
      let date := rest2.take 8
      let rest3 := rest2.drop 8
      if date.length == 8 && date.all Char.isDigit then
        match rest3 with
        | _ :: rest4 =>
          match dropPre "x86_64".data rest4 with
          | some (_ :: rest5) =>
            let fmtChars := rest5.takeWhile isWordChar
            let rest6 := rest5.dropWhile isWordChar
            if fmtChars.isEmpty then none else
            match rest6 with
            | [] => some ⟨name, (⟨rel⟩, ⟨date⟩), ⟨fmtChars⟩, none⟩
            | _ :: comp =>
              if !comp.isEmpty && comp.all isWordChar then
                some ⟨name, (⟨rel⟩, ⟨date⟩), ⟨fmtChars⟩, some ⟨comp⟩⟩
              else none
          | _ => none
        | [] => none
      else none
    | _ => none

/-! ## Local-image selection (`find_local_images` / `find_local_image`) -/

/-- `find_local_images`: parse a backend listing with `NAME_RE`,
silently dropping names that do not match. -/
def find_local_images (imageType : String) (listing : List String) : List ImageInfo :=
  listing.filterMap (parseImageName imageType)

/-- The sort key of `find_local_image`:
`(info.version[0], info.version[1], info.compression is None)` —
note both version components are compared as *strings*. -/
def sortKey (i : ImageInfo) : String × String × Bool :=
  (i.version.fst, i.version.snd, i.compression.isNone)

/-- Python `<` on strings: lexicographic comparison of code points,
with a strict prefix ranking below its extensions. -/
def pyStrLtAux : List Char → List Char → Bool
  | [], [] => false
  | [], _ :: _ => true
  | _ :: _, [] => false
  | a :: as, b :: bs =>
    if a.toNat < b.toNat then true
    else if b.toNat < a.toNat then false
    else pyStrLtAux as bs

def pyStrLt (a b : String) : Bool :=
  pyStrLtAux a.data b.data

/-- Python `<` on the key triples: lexicographic over string
comparison (code points) and `False < True`. -/
def keyLt (a b : String × String × Bool) : Bool :=
  pyStrLt a.1 b.1 ||
    (a.1 == b.1 && (pyStrLt a.2.1 b.2.1 ||
      (a.2.1 == b.2.1 && (!a.2.2 && b.2.2))))

def infoLt (x y : ImageInfo) : Bool :=
  keyLt (sortKey x) (sortKey y)

/-- Insert `x` before the first element it is strictly below;
inserting each element of a list in turn gives Python's stable
ascending `sorted`. -/
def insertAsc (lt : α → α → Bool) (x : α) : List α → List α
  | [] => [x]
  | y :: ys => if lt x y then x :: y :: ys else y :: insertAsc lt x ys

/-- Python `sorted(l, key=sortKey)` (stable, ascending). -/
def pySorted (lt : α → α → Bool) (l : List α) : List α :=
  l.foldl (fun acc x => insertAsc lt x acc) []

/-- The three filter stages of `find_local_image` (format, compression,
then release and optional compose date), in source order.
`version = some []` would raise `IndexError` on `version[0]` in the
source; `fetch_image` never passes it (alias version parts are nonempty
when present). -/
def selectorPool (imgs : List ImageInfo) (version : Option (List String))
    (fmt : Option String) (compression : Bool) : List ImageInfo :=
  let l1 := match fmt with
    | some f => imgs.filter (fun i => i.fmt == f)
    | none => imgs
  let l2 := if !compression then l1.filter (fun i => i.compression.isNone) else l1
  match version with
  | none => l2
  | some [] => []
  | some (release :: rest) =>
    let lr := l2.filter (fun i => i.version.fst == release)
    match rest.head? with
    | some compose => lr.filter (fun i => i.version.snd == compose)
    | none => lr

/-- The filtering-and-ranking core of `find_local_image`, applied to the
already-parsed collection (the code behind `res_imgs = all_images`,
the filter stages, `sorted(res_imgs, key=...)` and `res_imgs[-1]`). -/
def find_local_image_from (imgs : List ImageInfo) (version : Option (List String))
    (fmt : Option String) (compression : Bool) : Option ImageInfo :=
  (pySorted infoLt (selectorPool imgs version fmt compression)).getLast?

/-- `find_local_image`: list the backend, parse, filter, rank. -/
def find_local_image (imageType : String) (listing : List String)
    (version : Option (List String)) (fmt : Option String) (compression : Bool) :
    Option ImageInfo :=
  find_local_image_from (find_local_images imageType listing) version fmt compression

/-! ## Remote resolution (`get_cloud_images` / `get_image`) -/

/-- The remote world as `FedoraImageFetcher` observes it: the
release-directory names at the mirror root, and the file listing of each
release's image subdirectory. -/
structure RemoteEnv where
  releases : List String
  files : String → List String

/-- Failure kinds of the acquisition engine.  `unknownAlias` is the
`ValueError` of `fetch_image`; `unsupportedCompression` its
`NotImplementedError`; `imageNotFound` the `StopIteration` escaping
`next()` in `get_image`; `noReleases` the `IndexError` of
`_get_latest_release` on an empty numeric listing; `emptyVersion` the
`IndexError` of `version[0]` on an empty version list. -/
inductive FetchErr where
  | unknownAlias (name : String)
  | unsupportedCompression (fullName : String)
  | imageNotFound
  | noReleases
  | emptyVersion
deriving DecidableEq, Repr

/-- `_get_latest_release`: sort the integer-parsing release names
numerically, take the last (the maximum); fails when none parse. -/
def latestRelease (releases : List String) : Option Nat :=
  (pySorted (fun a b => decide (a < b))
    ((releases.filter isDigitStr).map strToNat)).getLast?

/-- The parsed image listing of one remote release directory. -/
def imagesFor (imageType : String) (env : RemoteEnv) (release : String) :
    List ImageInfo :=
  (env.files release).filterMap (parseImageName imageType)

/-- `get_cloud_images`: with no release, resolve the latest release
first and list that directory; otherwise list the named release. -/
def get_cloud_images (imageType : String) (env : RemoteEnv)
    (release : Option String) : Except FetchErr (List ImageInfo) :=
  match release with
  | some r => .ok (imagesFor imageType env r)
  | none =>
    match latestRelease env.releases with
    | some n => .ok (imagesFor imageType env (toString n))
    | none => .error .noReleases

/-- `next(i for i in images if i.fmt == fmt)`: first format match,
`StopIteration` when the sequence is exhausted. -/
def firstWithFmt (fmt : String) : List ImageInfo → Except FetchErr ImageInfo
  | [] => .error .imageNotFound
  | i :: rest => if i.fmt == fmt then .ok i else firstWithFmt fmt rest

/-- `get_image`: keep only `version[0]` of the hint, list the remote
images for it and return the first with the requested format. -/
def get_image (imageType : String) (env : RemoteEnv)
    (version : Option (List String)) (fmt : String) : Except FetchErr ImageInfo :=
  match version with
  | some [] => .error .emptyVersion
  | some (r :: _) =>
    match get_cloud_images imageType env (some r) with
    | .ok imgs => firstWithFmt fmt imgs
    | .error e => .error e
  | none =>
    match get_cloud_images imageType env none with
    | .ok imgs => firstWithFmt fmt imgs
    | .error e => .error e

/-! ## The acquisition orchestrator (`fetch_image`) -/

/-- A storage backend: a plain image directory (`img_dir`) or a managed
pool, whose `path` function stands for `vol.path()` on a volume name. -/
inductive Backend where
  | directory (imgDir : String)
  | pool (path : String → String)

/-- The location returned for a cache hit: `os.path.join(img_dir,
full_name)` for the directory backend, the bare volume name for the
pool backend. -/
def Backend.locate : Backend → String → String
  | .directory d, n => pathJoin d n
  | .pool _, n => n

/-- The location returned after a remote fetch (`fetch`): the joined
directory path, or the volume's path.  (With a pool, `fetch` returns
`vol.path()` both on the early not-owned return and after the
download, so one function covers both exits.) -/
def Backend.downloadDest : Backend → String → String
  | .directory d, n => pathJoin d n
  | .pool p, n => p n

/-- Which external resources a `fetch_image` call touched: the network
(mirror list, FTP listing, or download) and the local-cache listing. -/
structure Trace where
  usedNetwork : Bool
  listedCache : Bool
deriving DecidableEq, Repr

/-- The strategy table `_IMAGE_FETCHERS`, mapping an alias type segment
to the fetcher's `image_type` grammar parameter. -/
def imageFetchers : List (String × String) :=
  [("fedora", "Base"), ("fedora-atomic", "Atomic")]

/-- `parts[0]` of `name.split('-')` (the split of a string is never
empty, so the default is never used). -/
def aliasType (name : String) : String :=
  (pySplit '-' name).headD ""

/-- `parts[1:] if len(parts) > 1 else None`. -/
def aliasVersion (name : String) : Option (List String) :=
  let parts := pySplit '-' name
  if parts.length > 1 then some parts.tail else none

/-- The cache-hit handling of `fetch_image` (disk.py lines 203-214):
a compressed best match raises, an uncompressed one resolves to its
format and backend location. -/
def cacheHitStep (backend : Backend) (info : ImageInfo) :
    Except FetchErr (String × String) :=
  if info.compression.isSome then .error (.unsupportedCompression info.full_name)
  else .ok (info.fmt, backend.locate info.full_name)

/-- The remote half of `fetch_image`: `get_image` (network), the
compression check, then `fetch` (network) into the backend. -/
def remoteFetchStep (imageType : String) (backend : Backend) (env : RemoteEnv)
    (version : Option (List String)) : Except FetchErr (String × String) :=
  match get_image imageType env version "qcow2" with
  | .error e => .error e
  | .ok info =>
    if info.compression.isSome then .error (.unsupportedCompression info.full_name)
    else .ok (info.fmt, backend.downloadDest info.full_name)

/-- `fetch_image(name, ...)`: path-like aliases are returned as-is with
the `splitext` extension as format; otherwise the type segment selects
a fetcher (or fails), the local cache is consulted when `check_local`,
and a miss falls through to remote resolution.  The `Trace` in the
result records whether the call listed the cache or used the network. -/
def fetch_image (name : String) (backend : Backend) (listing : List String)
    (env : RemoteEnv) (checkLocal : Bool) :
    Except FetchErr (String × String) × Trace :=
  if pathLike name then
    (.ok (splitextExt name, name), ⟨false, false⟩)
  else
    match imageFetchers.lookup (aliasType name) with
    | none => (.error (.unknownAlias name), ⟨false, false⟩)
    | some imageType =>
      let version := aliasVersion name
      if checkLocal then
        match find_local_image imageType listing version none false with
        | some info => (cacheHitStep backend info, ⟨false, true⟩)
        | none => (remoteFetchStep imageType backend env version, ⟨true, true⟩)
      else
        (remoteFetchStep imageType backend env version, ⟨true, false⟩)

/-! ## Disk provisioning (`make_disk_file` / `make_disk_volume`) -/

/-- External actions of `make_disk_file`: `os.remove(path)` and the
`qemu-img create -f fmt [-o backing_file=b] path size` call. -/
inductive DiskCmd where
  | removeFile (path : String)
  | qemuImgCreate (fmt : String) (backing : Option String) (path : String) (size : String)
deriving DecidableEq, Repr

def isCreateCmd : DiskCmd → Bool
  | .qemuImgCreate .. => true
  | _ => false

/-- `make_disk_file`: the filesystem is the set of existing paths; the
result is the new filesystem and the commands run, in order.  An
existing target is left alone unless `overwrite`, in which case it is
removed and recreated. -/
def make_disk_file (fs : List String) (path size : String)
    (backing : Option String) (fmt : String) (overwrite : Bool) :
    List String × List DiskCmd :=
  if fs.contains path then
    if !overwrite then (fs, [])
    else (path :: fs.erase path,
          [.removeFile path, .qemuImgCreate fmt backing path size])
  else (path :: fs, [.qemuImgCreate fmt backing path size])

/-- External actions of `make_disk_volume`: `existing.delete()` and
`pool.createXML` of the `_vol_conf` volume document (whose backing
format is `qcow2` exactly when the backing file's extension is
`.qcow2`, else `raw`). -/
inductive VolCmd where
  | deleteVol (name : String)
  | createXML (name size fmt : String) (backing : Option String)
      (backingFmt : Option String)
deriving DecidableEq, Repr

def isCreateVol : VolCmd → Bool
  | .createXML .. => true
  | _ => false

/-- The backing-format inference of `_vol_conf`. -/
def backingFmtOf (backing : Option String) : Option String :=
  backing.map (fun b => if splitextExt b == ".qcow2" then "qcow2" else "raw")

/-- `make_disk_volume`: like `make_disk_file` on the pool's volume-name
set, deleting and recreating an existing volume only when `overwrite`. -/
def make_disk_volume (vols : List String) (name size fmt : String)
    (backing : Option String) (overwrite : Bool) :
    List String × List VolCmd :=
  if vols.contains name then
    if !overwrite then (vols, [])
    else (name :: vols.erase name,
          [.deleteVol name, .createXML name size fmt backing (backingFmtOf backing)])
  else (name :: vols, [.createXML name size fmt backing (backingFmtOf backing)])

/-! ## Helper lemmas -/

theorem insertAsc_mem {lt : α → α → Bool} {x z : α} :
    ∀ {l : List α}, z ∈ insertAsc lt x l → z = x ∨ z ∈ l
  | [], h => by simpa [insertAsc] using h
  | y :: ys, h => by
    rw [insertAsc] at h
    split at h
    · rcases List.mem_cons.mp h with h1 | h1
      · exact .inl h1
      · exact .inr h1
    · rcases List.mem_cons.mp h with h1 | h1
      · exact .inr (by simp [h1])
      · rcases insertAsc_mem h1 with h2 | h2
        · exact .inl h2
        · exact .inr (List.mem_cons_of_mem _ h2)

theorem insertAsc_length {lt : α → α → Bool} (x : α) :
    ∀ (l : List α), (insertAsc lt x l).length = l.length + 1
  | [] => rfl
  | y :: ys => by
    rw [insertAsc]
    split
    · simp
    · simp [insertAsc_length x ys]

theorem pySortedAux_mem {lt : α → α → Bool} {z : α} :
    ∀ (l acc : List α),
      z ∈ l.foldl (fun acc x => insertAsc lt x acc) acc → z ∈ acc ∨ z ∈ l
  | [], _, h => .inl h
  | x :: xs, acc, h => by
    rcases pySortedAux_mem xs (insertAsc lt x acc) h with h1 | h1
    · rcases insertAsc_mem h1 with h2 | h2
      · exact .inr (by simp [h2])
      · exact .inl h2
    · exact .inr (List.mem_cons_of_mem _ h1)

theorem pySorted_mem {lt : α → α → Bool} {z : α} {l : List α}
    (h : z ∈ pySorted lt l) : z ∈ l := by
  rcases pySortedAux_mem l [] h with h1 | h1
  · simp at h1
  · exact h1

theorem pySortedAux_length {lt : α → α → Bool} :
    ∀ (l acc : List α),
      (l.foldl (fun acc x => insertAsc lt x acc) acc).length = acc.length + l.length
  | [], _ => rfl
  | x :: xs, acc => by
    have := @pySortedAux_length _ lt xs (insertAsc lt x acc)
    simp only [List.foldl_cons, this, insertAsc_length, List.length_cons]
    omega

theorem pySorted_length {lt : α → α → Bool} (l : List α) :
    (pySorted lt l).length = l.length := by
  simpa using @pySortedAux_length _ lt l []

theorem find_local_image_from_mem {imgs : List ImageInfo}
    {v : Option (List String)} {f : Option String} {c : Bool} {info : ImageInfo}
    (h : find_local_image_from imgs v f c = some info) :
    info ∈ selectorPool imgs v f c := by
  unfold find_local_image_from at h
  have hmem : info ∈ (pySorted infoLt (selectorPool imgs v f c)).getLast? := h
  rcases List.mem_getLast?_eq_getLast hmem with ⟨hne, heq⟩
  exact pySorted_mem (heq ▸ List.getLast_mem hne)

theorem find_local_image_from_isSome {imgs : List ImageInfo}
    {v : Option (List String)} {f : Option String} {c : Bool}
    (h : selectorPool imgs v f c ≠ []) :
    ∃ info, find_local_image_from imgs v f c = some info := by
  unfold find_local_image_from
  have hne : pySorted infoLt (selectorPool imgs v f c) ≠ [] := by
    intro hnil
    apply h
    have := @pySorted_length _ infoLt (selectorPool imgs v f c)
    rw [hnil] at this
    exact List.length_eq_zero.mp this.symm
  rcases hx : (pySorted infoLt (selectorPool imgs v f c)).getLast? with _ | info
  · exact absurd (List.getLast?_eq_none_iff.mp hx) hne
  · exact ⟨info, rfl⟩

theorem selectorPool_subset {imgs : List ImageInfo} {v : Option (List String)}
    {f : Option String} {c : Bool} {info : ImageInfo}
    (h : info ∈ selectorPool imgs v f c) : info ∈ imgs := by
  unfold selectorPool at h
  rcases v with _ | (_ | ⟨r, rest⟩)
  · cases c <;> cases f <;> simp_all [List.mem_filter]
  · simp at h
  · rcases rest with _ | ⟨comp, rest'⟩ <;>
      cases c <;> cases f <;> simp_all [List.mem_filter]

theorem selectorPool_uncompressed {imgs : List ImageInfo}
    {v : Option (List String)} {f : Option String} {info : ImageInfo}
    (h : info ∈ selectorPool imgs v f false) : info.compression = none := by
  unfold selectorPool at h
  rcases v with _ | (_ | ⟨r, rest⟩)
  · cases f <;> simp_all [List.mem_filter, Option.isNone_iff_eq_none]
  · simp at h
  · rcases rest with _ | ⟨comp, rest'⟩ <;>
      cases f <;> simp_all [List.mem_filter, Option.isNone_iff_eq_none]

theorem selectorPool_release {imgs : List ImageInfo} {r : String}
    {rest : List String} {f : Option String} {c : Bool} {info : ImageInfo}
    (h : info ∈ selectorPool imgs (some (r :: rest)) f c) :
    info.version.fst = r := by
  unfold selectorPool at h
  rcases rest with _ | ⟨comp, rest'⟩ <;>
    cases c <;> cases f <;> simp_all [List.mem_filter]

theorem selectorPool_compose {imgs : List ImageInfo} {r comp : String}
    {rest : List String} {f : Option String} {c : Bool} {info : ImageInfo}
    (hrest : rest.head? = some comp)
    (h : info ∈ selectorPool imgs (some (r :: rest)) f c) :
    info.version.snd = comp := by
  rcases rest with _ | ⟨x, xs⟩
  · simp at hrest
  · simp only [List.head?_cons, Option.some.injEq] at hrest
    subst hrest
    unfold selectorPool at h
    cases c <;> cases f <;> simp_all [List.mem_filter]

theorem selectorPool_intro {imgs : List ImageInfo} {r : String} {info : ImageInfo}
    (h1 : info ∈ imgs) (h2 : info.compression = none)
    (h3 : info.version.fst = r) :
    info ∈ selectorPool imgs (some [r]) none false := by
  unfold selectorPool
  simp [List.mem_filter, h1, h2, h3]

theorem firstWithFmt_ok_find? {fmt : String} :
    ∀ {l : List ImageInfo} {i : ImageInfo}, firstWithFmt fmt l = .ok i →
      l.find? (fun x => x.fmt == fmt) = some i
  | [], _, h => by simp [firstWithFmt] at h
  | x :: xs, i, h => by
    rw [firstWithFmt] at h
    by_cases hx : x.fmt == fmt
    · rw [if_pos hx] at h
      injection h with h
      subst h
      simp [List.find?, hx]
    · rw [if_neg hx] at h
      simp only [List.find?]
      rw [Bool.of_not_eq_true hx]
      exact firstWithFmt_ok_find? h

theorem firstWithFmt_exhausted {fmt : String} :
    ∀ {l : List ImageInfo}, (∀ i ∈ l, i.fmt ≠ fmt) →
      firstWithFmt fmt l = .error .imageNotFound
  | [], _ => rfl
  | x :: xs, h => by
    rw [firstWithFmt]
    rw [if_neg (by simpa using h x (by simp))]
    exact firstWithFmt_exhausted (fun i hi => h i (List.mem_cons_of_mem _ hi))

/-- `find_local_image` with `compression=False` (its default, and the
only way `fetch_image` calls it) yields only uncompressed records. -/
theorem find_local_image_uncompressed {imageType : String} {listing : List String}
    {version : Option (List String)} {fmt : Option String} {info : ImageInfo}
    (h : find_local_image imageType listing version fmt false = some info) :
    info.compression = none := by
  unfold find_local_image at h
  exact selectorPool_uncompressed (find_local_image_from_mem h)

/-! ## Concrete fixtures used by witnesses -/

def img23 : ImageInfo :=
  ⟨"Fedora-Cloud-Base-23-20151030.x86_64.qcow2", ("23", "20151030"), "qcow2", none⟩

def img23xz : ImageInfo :=
  ⟨"Fedora-Cloud-Base-23-20151030.x86_64.qcow2.xz", ("23", "20151030"), "qcow2", some "xz"⟩

def img10 : ImageInfo :=
  ⟨"Fedora-Cloud-Base-10-20151030.x86_64.qcow2", ("10", "20151030"), "qcow2", none⟩

def img9 : ImageInfo :=
  ⟨"Fedora-Cloud-Base-9-20151030.x86_64.qcow2", ("9", "20151030"), "qcow2", none⟩

def envEmpty : RemoteEnv := ⟨[], fun _ => []⟩

def env23 : RemoteEnv :=
  ⟨["23"], fun r => if r = "23" then ["Fedora-Cloud-Base-23-20151030.x86_64.qcow2"] else []⟩

def env23xz : RemoteEnv :=
  ⟨["23"], fun r => if r = "23" then ["Fedora-Cloud-Base-23-20151030.x86_64.qcow2.xz"] else []⟩

/-! ## Claim theorems -/

/-- Claim C1: the claim says the surviving candidates are ordered by the
triple `(release as integer, compose date as integer,
uncompressed-before-compressed)`, so that release `"9"` ranks below
release `"10"`.  The code's sort key uses the raw version *strings*
(`info.version[0]`, `info.version[1]`), so `"9" > "10"`
lexicographically and the release-9 record is returned as the maximum,
although its release is numerically smaller — string ordering, not the
claimed integer ordering, decides. -/
theorem selector_sorts_releases_as_strings :
    find_local_image_from [img10, img9] none none false = some img9 ∧
    strToNat img9.version.fst < strToNat img10.version.fst := by decide

/-- Claim C2 counterexample: a path-like alias ending in `.qcow2` is
returned with format token `".qcow2"` — the `os.path.splitext` suffix
including its leading dot — not the bare `"qcow2"` the claim states. -/
theorem fetch_image_pathlike_counterexample :
    (fetch_image "/var/images/custom.qcow2" (.directory "/var/lib/libvirt/images") []
        envEmpty true).1 =
      .ok (".qcow2", "/var/images/custom.qcow2") ∧
    (".qcow2" : String) ≠ "qcow2" := by decide

/-- Claim C2 (amended): for every alias beginning with a path
separator, `fetch_image` performs no network access and no local-cache
listing and returns exactly that location paired with its `splitext`
extension (`".qcow2"`, leading dot included, when the location ends in
`.qcow2` with a non-dot character before the suffix). -/
theorem fetch_image_pathlike (name : String) (backend : Backend)
    (listing : List String) (env : RemoteEnv) (checkLocal : Bool)
    (h : pathLike name = true) :
    fetch_image name backend listing env checkLocal =
      (.ok (splitextExt name, name), ⟨false, false⟩) := by
  simp [fetch_image, h]

theorem fetch_image_pathlike_witness :
    pathLike "/var/images/custom.qcow2" = true ∧
    fetch_image "/var/images/custom.qcow2" (.directory "/var/lib/libvirt/images") []
        envEmpty true =
      (.ok (".qcow2", "/var/images/custom.qcow2"), ⟨false, false⟩) := by
  refine ⟨by decide, ?_⟩
  rw [fetch_image_pathlike "/var/images/custom.qcow2"
    (.directory "/var/lib/libvirt/images") [] envEmpty true (by decide)]
  decide

/-- Claim C4: `find_local_image` called with its default
`compression=False` (the only way `fetch_image` calls it) returns
either `None` or an uncompressed record, so the compressed-local-image
error branch in `fetch_image`'s cache-check path is unreachable: any
`unsupportedCompression` failure of `fetch_image` comes from the remote
branch, i.e. only after the network has been used. -/
theorem cache_compressed_branch_unreachable :
    (∀ (imageType : String) (listing : List String) (version : Option (List String))
       (fmt : Option String) (info : ImageInfo),
       find_local_image imageType listing version fmt false = some info →
       info.compression = none) ∧
    (∀ (name : String) (backend : Backend) (listing : List String) (env : RemoteEnv)
       (checkLocal : Bool) (s : String),
       (fetch_image name backend listing env checkLocal).1 =
         .error (.unsupportedCompression s) →
       (fetch_image name backend listing env checkLocal).2.usedNetwork = true) := by
  refine ⟨fun _ _ _ _ _ h => find_local_image_uncompressed h, ?_⟩
  intro name backend listing env checkLocal s h
  unfold fetch_image at h ⊢
  by_cases hp : pathLike name = true
  · simp [hp] at h
  · simp only [Bool.not_eq_true] at hp
    simp only [hp] at h ⊢
    rcases hl : imageFetchers.lookup (aliasType name) with _ | it
    · simp [hl] at h
    · simp only [hl] at h ⊢
      by_cases hc : checkLocal = true
      · simp only [hc] at h ⊢
        rcases hf : find_local_image it listing (aliasVersion name) none false
          with _ | info
        · simp [hf]
        · have hcomp := find_local_image_uncompressed hf
          simp [hf, cacheHitStep, hcomp] at h
      · simp only [Bool.not_eq_true] at hc
        simp [hc]

theorem cache_compressed_branch_unreachable_witness :
    find_local_image "Base" ["Fedora-Cloud-Base-23-20151030.x86_64.qcow2"]
        none none false = some img23 ∧
    img23.compression = none ∧
    (fetch_image "fedora-23" (.directory "/tmp") [] env23xz true).1 =
      .error (.unsupportedCompression "Fedora-Cloud-Base-23-20151030.x86_64.qcow2.xz") ∧
    (fetch_image "fedora-23" (.directory "/tmp") [] env23xz true).2.usedNetwork = true := by
  refine ⟨by decide,
    cache_compressed_branch_unreachable.1 "Base"
      ["Fedora-Cloud-Base-23-20151030.x86_64.qcow2"] none none img23 (by decide),
    by decide,
    cache_compressed_branch_unreachable.2 "fedora-23" (.directory "/tmp") [] env23xz true
      "Fedora-Cloud-Base-23-20151030.x86_64.qcow2.xz" (by decide)⟩

/-- Claim C7: the Selector with `allow_compressed=false` never returns
a record whose compression field is present; when every candidate is
compressed it returns `None`. -/
theorem selector_never_returns_compressed :
    (∀ (imgs : List ImageInfo) (version : Option (List String)) (fmt : Option String)
       (info : ImageInfo),
       find_local_image_from imgs version fmt false = some info →
       info.compression = none) ∧
    (∀ (imgs : List ImageInfo) (version : Option (List String)) (fmt : Option String),
       (∀ i ∈ imgs, i.compression.isSome) →
       find_local_image_from imgs version fmt false = none) := by
  refine ⟨fun _ _ _ _ h => selectorPool_uncompressed (find_local_image_from_mem h), ?_⟩
  intro imgs version fmt hall
  have hempty : selectorPool imgs version fmt false = [] := by
    refine List.eq_nil_iff_forall_not_mem.mpr (fun info hinfo => ?_)
    have h1 := selectorPool_uncompressed hinfo
    have h2 := hall info (selectorPool_subset hinfo)
    simp [h1] at h2
  unfold find_local_image_from
  rw [hempty]
  rfl

theorem selector_never_returns_compressed_witness :
    find_local_image_from [img23xz, img23] none none false = some img23 ∧
    img23.compression = none ∧
    (∀ i ∈ [img23xz], i.compression.isSome) ∧
    find_local_image_from [img23xz] none none false = none := by
  refine ⟨by decide,
    selector_never_returns_compressed.1 [img23xz, img23] none none img23 (by decide),
    by decide, selector_never_returns_compressed.2 [img23xz] none none (by decide)⟩

/-- Claim C3: a best match delivered by the local cache lookup with its
compression field present is mapped by `fetch_image`'s cache-check code
to the unsupported-compression failure, never to a fallback: the
cache-hit handler rejects every compressed record, and whenever the
lookup yields a best match `fetch_image` returns exactly the cache-hit
handler's verdict, with no network use. -/
theorem compressed_cache_hit_is_fatal :
    (∀ (backend : Backend) (info : ImageInfo), info.compression.isSome →
       cacheHitStep backend info =
         .error (.unsupportedCompression info.full_name)) ∧
    (∀ (name : String) (backend : Backend) (listing : List String) (env : RemoteEnv)
       (imageType : String) (info : ImageInfo),
       pathLike name = false →
       imageFetchers.lookup (aliasType name) = some imageType →
       find_local_image imageType listing (aliasVersion name) none false = some info →
       fetch_image name backend listing env true =
         (cacheHitStep backend info, ⟨false, true⟩)) := by
  refine ⟨fun backend info h => by simp [cacheHitStep, h], ?_⟩
  intro name backend listing env imageType info hp hl hf
  simp [fetch_image, hp, hl, hf]

theorem compressed_cache_hit_is_fatal_witness :
    img23xz.compression.isSome ∧
    cacheHitStep (.directory "/tmp") img23xz =
      .error (.unsupportedCompression "Fedora-Cloud-Base-23-20151030.x86_64.qcow2.xz") ∧
    pathLike "fedora-23" = false ∧
    imageFetchers.lookup (aliasType "fedora-23") = some "Base" ∧
    find_local_image "Base" ["Fedora-Cloud-Base-23-20151030.x86_64.qcow2"]
      (aliasVersion "fedora-23") none false = some img23 ∧
    fetch_image "fedora-23" (.directory "/tmp")
        ["Fedora-Cloud-Base-23-20151030.x86_64.qcow2"] envEmpty true =
      (cacheHitStep (.directory "/tmp") img23, ⟨false, true⟩) := by
  refine ⟨by decide,
    compressed_cache_hit_is_fatal.1 (.directory "/tmp") img23xz (by decide),
    by decide, by decide, by decide,
    compressed_cache_hit_is_fatal.2 "fedora-23" (.directory "/tmp")
      ["Fedora-Cloud-Base-23-20151030.x86_64.qcow2"] envEmpty "Base" img23
      (by decide) (by decide) (by decide)⟩

/-- Claim C5: when the backend listing contains an uncompressed
artifact matching the alias's release, `fetch_image` with the cache
check enabled resolves to such an artifact's format and backend
location, with no network access. -/
theorem fetch_image_cache_hit_no_network
    (name r : String) (backend : Backend) (listing : List String) (env : RemoteEnv)
    (hsplit : pySplit '-' name = ["fedora", r])
    (hpath : pathLike name = false)
    (hhit : ∃ info ∈ find_local_images "Base" listing,
              info.compression = none ∧ info.version.fst = r) :
    ∃ info ∈ find_local_images "Base" listing,
      info.compression = none ∧ info.version.fst = r ∧
      fetch_image name backend listing env true =
        (.ok (info.fmt, backend.locate info.full_name), ⟨false, true⟩) := by
  obtain ⟨i0, hi0mem, hi0c, hi0r⟩ := hhit
  have hpool : selectorPool (find_local_images "Base" listing) (some [r]) none false ≠ [] := by
    intro hnil
    have hm := selectorPool_intro hi0mem hi0c hi0r
    rw [hnil] at hm
    simp at hm
  obtain ⟨info, hinfo⟩ := find_local_image_from_isSome hpool
  have hmem := find_local_image_from_mem hinfo
  have hc := selectorPool_uncompressed hmem
  have hr := selectorPool_release hmem
  have hsub := selectorPool_subset hmem
  refine ⟨info, hsub, hc, hr, ?_⟩
  have htype : aliasType name = "fedora" := by simp [aliasType, hsplit]
  have hver : aliasVersion name = some [r] := by simp [aliasVersion, hsplit]
  have hlookup : imageFetchers.lookup (aliasType name) = some "Base" := by
    rw [htype]; rfl
  have hfind : find_local_image "Base" listing (aliasVersion name) none false =
      some info := by
    unfold find_local_image
    rw [hver]
    exact hinfo
  simp [fetch_image, hpath, hlookup, hfind, cacheHitStep, hc]

theorem fetch_image_cache_hit_no_network_witness :
    pySplit '-' "fedora-23" = ["fedora", "23"] ∧
    (∃ info ∈ find_local_images "Base" ["Fedora-Cloud-Base-23-20151030.x86_64.qcow2"],
      info.compression = none ∧ info.version.fst = "23" ∧
      fetch_image "fedora-23" (.directory "/var/lib/libvirt/images")
          ["Fedora-Cloud-Base-23-20151030.x86_64.qcow2"] envEmpty true =
        (.ok (info.fmt,
          Backend.locate (.directory "/var/lib/libvirt/images") info.full_name),
         ⟨false, true⟩)) :=
  ⟨by decide,
    fetch_image_cache_hit_no_network "fedora-23" "23"
      (.directory "/var/lib/libvirt/images")
      ["Fedora-Cloud-Base-23-20151030.x86_64.qcow2"] envEmpty
      (by decide) (by decide) ⟨img23, by decide, by decide, by decide⟩⟩

/-- Claim C9: a non-path alias whose leading type segment matches no
known distribution strategy fails immediately with the unknown-alias
error, touching neither the cache listing nor the network. -/
theorem fetch_image_unknown_alias
    (name : String) (backend : Backend) (listing : List String) (env : RemoteEnv)
    (checkLocal : Bool)
    (hpath : pathLike name = false)
    (hunknown : aliasType name ∉ ["fedora", "fedora-atomic"]) :
    fetch_image name backend listing env checkLocal =
      (.error (.unknownAlias name), ⟨false, false⟩) := by
  have h1 : (aliasType name == "fedora") = false := by
    simp only [beq_eq_false_iff_ne, ne_eq]
    intro h
    exact hunknown (by simp [h])
  have h2 : (aliasType name == "fedora-atomic") = false := by
    simp only [beq_eq_false_iff_ne, ne_eq]
    intro h
    exact hunknown (by simp [h])
  have hl : imageFetchers.lookup (aliasType name) = none := by
    simp [imageFetchers, List.lookup, h1, h2]
  simp [fetch_image, hpath, hl]

theorem fetch_image_unknown_alias_witness :
    pathLike "ubuntu-16" = false ∧
    aliasType "ubuntu-16" ∉ ["fedora", "fedora-atomic"] ∧
    fetch_image "ubuntu-16" (.directory "/tmp") [] envEmpty true =
      (.error (.unknownAlias "ubuntu-16"), ⟨false, false⟩) :=
  ⟨by decide, by decide,
    fetch_image_unknown_alias "ubuntu-16" (.directory "/tmp") [] envEmpty true
      (by decide) (by decide)⟩

/-- Claim C6: `get_image` resolves `latest_release()` first when the
version hint carries no release, returns the first listed image whose
format equals the requested format, and fails with the image-not-found
error (the `StopIteration` escaping `next()`) when the listing is
exhausted with no format match. -/
theorem get_image_first_format_match :
    (∀ (imageType : String) (env : RemoteEnv) (n : Nat) (fmt : String),
       latestRelease env.releases = some n →
       get_image imageType env none fmt =
         get_image imageType env (some [toString n]) fmt) ∧
    (∀ (imageType : String) (env : RemoteEnv) (r : String) (rest : List String)
       (fmt : String) (i : ImageInfo),
       get_image imageType env (some (r :: rest)) fmt = .ok i →
       (imagesFor imageType env r).find? (fun x => x.fmt == fmt) = some i) ∧
    (∀ (imageType : String) (env : RemoteEnv) (r : String) (rest : List String)
       (fmt : String),
       (∀ i ∈ imagesFor imageType env r, i.fmt ≠ fmt) →
       get_image imageType env (some (r :: rest)) fmt = .error .imageNotFound) := by
  refine ⟨?_, ?_, ?_⟩
  · intro imageType env n fmt h
    simp [get_image, get_cloud_images, h]
  · intro imageType env r rest fmt i h
    simp only [get_image, get_cloud_images] at h
    exact firstWithFmt_ok_find? h
  · intro imageType env r rest fmt h
    simp only [get_image, get_cloud_images]
    exact firstWithFmt_exhausted h

theorem get_image_first_format_match_witness :
    latestRelease env23.releases = some 23 ∧
    get_image "Base" env23 none "qcow2" =
      get_image "Base" env23 (some [toString 23]) "qcow2" ∧
    get_image "Base" env23 (some ["23"]) "qcow2" = .ok img23 ∧
    (imagesFor "Base" env23 "23").find? (fun x => x.fmt == "qcow2") = some img23 ∧
    (∀ i ∈ imagesFor "Base" env23 "23", i.fmt ≠ "raw") ∧
    get_image "Base" env23 (some ["23"]) "raw" = .error .imageNotFound := by
  refine ⟨by decide,
    get_image_first_format_match.1 "Base" env23 23 "qcow2" (by decide),
    by decide,
    get_image_first_format_match.2.1 "Base" env23 "23" [] "qcow2" img23 (by decide),
    by decide,
    get_image_first_format_match.2.2 "Base" env23 "23" [] "raw" (by decide)⟩

/-- Claim C10: remote resolution uses only the release component of the
version hint — `get_image` on `(release :: compose-date :: _)` equals
`get_image` on the release alone — while the compose date does restrict
local cache matching: a record selected under a hint carrying one must
carry exactly that release and compose date. -/
theorem compose_date_restricts_local_only :
    (∀ (imageType : String) (env : RemoteEnv) (r : String) (rest : List String)
       (fmt : String),
       get_image imageType env (some (r :: rest)) fmt =
         get_image imageType env (some [r]) fmt) ∧
    (∀ (imgs : List ImageInfo) (r c : String) (rest : List String)
       (fmt : Option String) (cmp : Bool) (info : ImageInfo),
       find_local_image_from imgs (some (r :: c :: rest)) fmt cmp = some info →
       info.version.fst = r ∧ info.version.snd = c) := by
  refine ⟨fun _ _ _ _ _ => rfl, ?_⟩
  intro imgs r c rest fmt cmp info h
  have hmem := find_local_image_from_mem h
  exact ⟨selectorPool_release hmem, selectorPool_compose (by simp) hmem⟩

def img23b : ImageInfo :=
  ⟨"Fedora-Cloud-Base-23-20151101.x86_64.qcow2", ("23", "20151101"), "qcow2", none⟩

theorem compose_date_restricts_local_only_witness :
    find_local_image_from [img23, img23b] (some ["23", "20151030"]) none false =
      some img23 ∧
    img23.version.fst = "23" ∧ img23.version.snd = "20151030" := by
  refine ⟨by decide, ?_, ?_⟩
  · exact (compose_date_restricts_local_only.2 [img23, img23b] "23" "20151030" []
      none false img23 (by decide)).1
  · exact (compose_date_restricts_local_only.2 [img23, img23b] "23" "20151030" []
      none false img23 (by decide)).2

/-- Claim C8 counterexample: on a target that already exists, two
consecutive `make_disk_file` calls with `overwrite=false` run the
creation command zero times — not the "exactly once in total" the
claim states. -/
theorem make_disk_file_existing_twice_counterexample :
    ((make_disk_file ["/tmp/vm.qcow2"] "/tmp/vm.qcow2" "20 GiB" none "qcow2" false).2 ++
      (make_disk_file
        (make_disk_file ["/tmp/vm.qcow2"] "/tmp/vm.qcow2" "20 GiB" none "qcow2" false).1
        "/tmp/vm.qcow2" "20 GiB" none "qcow2" false).2).countP isCreateCmd = 0 ∧
    (0 : Nat) ≠ 1 := by decide

/-- Claim C8 (amended): provisioning an existing target with
`overwrite=false` changes no state and runs no command — so two
consecutive calls on an existing target run the creation command zero
times, and two consecutive calls starting from a missing target run it
exactly once in total; with `overwrite=true` an existing target is
always deleted and then recreated, for directory files and pool
volumes alike. -/
theorem provision_disk_idempotent :
    (∀ (fs : List String) (path size : String) (backing : Option String) (fmt : String),
       fs.contains path = true →
       make_disk_file fs path size backing fmt false = (fs, [])) ∧
    (∀ (fs : List String) (path size : String) (backing : Option String) (fmt : String),
       fs.contains path = false →
       ((make_disk_file fs path size backing fmt false).2 ++
         (make_disk_file (make_disk_file fs path size backing fmt false).1
            path size backing fmt false).2).countP isCreateCmd = 1) ∧
    (∀ (fs : List String) (path size : String) (backing : Option String) (fmt : String),
       fs.contains path = true →
       make_disk_file fs path size backing fmt true =
         (path :: fs.erase path,
          [.removeFile path, .qemuImgCreate fmt backing path size])) ∧
    (∀ (vols : List String) (nm size fmt : String) (backing : Option String),
       vols.contains nm = true →
       make_disk_volume vols nm size fmt backing false = (vols, [])) ∧
    (∀ (vols : List String) (nm size fmt : String) (backing : Option String),
       vols.contains nm = true →
       make_disk_volume vols nm size fmt backing true =
         (nm :: vols.erase nm,
          [.deleteVol nm, .createXML nm size fmt backing (backingFmtOf backing)])) := by
  refine ⟨?_, ?_, ?_, ?_, ?_⟩
  · intro fs path size backing fmt h
    simp at h
    simp [make_disk_file, h]
  · intro fs path size backing fmt h
    simp at h
    simp [make_disk_file, h, isCreateCmd]
  · intro fs path size backing fmt h
    simp at h
    simp [make_disk_file, h]
  · intro vols nm size fmt backing h
    simp at h
    simp [make_disk_volume, h]
  · intro vols nm size fmt backing h
    simp at h
    simp [make_disk_volume, h]

theorem provision_disk_idempotent_witness :
    make_disk_file ["/tmp/vm.qcow2"] "/tmp/vm.qcow2" "20 GiB" none "qcow2" false =
      (["/tmp/vm.qcow2"], []) ∧
    ((make_disk_file [] "/tmp/vm.qcow2" "20 GiB" none "qcow2" false).2 ++
      (make_disk_file (make_disk_file [] "/tmp/vm.qcow2" "20 GiB" none "qcow2" false).1
        "/tmp/vm.qcow2" "20 GiB" none "qcow2" false).2).countP isCreateCmd = 1 ∧
    make_disk_file ["/tmp/vm.qcow2"] "/tmp/vm.qcow2" "20 GiB" none "qcow2" true =
      (["/tmp/vm.qcow2"],
       [.removeFile "/tmp/vm.qcow2", .qemuImgCreate "qcow2" none "/tmp/vm.qcow2" "20 GiB"]) ∧
    make_disk_volume ["vm-main.qcow2"] "vm-main.qcow2" "20 GiB" "qcow2" none false =
      (["vm-main.qcow2"], []) ∧
    make_disk_volume ["vm-main.qcow2"] "vm-main.qcow2" "20 GiB" "qcow2" none true =
      (["vm-main.qcow2"],
       [.deleteVol "vm-main.qcow2",
        .createXML "vm-main.qcow2" "20 GiB" "qcow2" none none]) := by
  have h1 := provision_disk_idempotent.1 ["/tmp/vm.qcow2"] "/tmp/vm.qcow2" "20 GiB"
    none "qcow2" (by decide)
  have h2 := provision_disk_idempotent.2.1 [] "/tmp/vm.qcow2" "20 GiB" none "qcow2"
    (by decide)
  have h3 := provision_disk_idempotent.2.2.1 ["/tmp/vm.qcow2"] "/tmp/vm.qcow2" "20 GiB"
    none "qcow2" (by decide)
  have h4 := provision_disk_idempotent.2.2.2.1 ["vm-main.qcow2"] "vm-main.qcow2" "20 GiB"
    "qcow2" none (by decide)
  have h5 := provision_disk_idempotent.2.2.2.2 ["vm-main.qcow2"] "vm-main.qcow2" "20 GiB"
    "qcow2" none (by decide)
  exact ⟨h1, h2, by simpa using h3, h4, by simpa using h5⟩

end Vmup

